import Mathlib

/-!
Shallow embedding of the cgb-io-hub input-relay hub
(internal/hub/hub.go) and verification of its specified behaviour.

Modelling conventions:
* Go strings are sequences of runes; a rune is a Unicode code point,
  embedded as a natural number (`GoStr := List Nat`).
* Go maps are association lists (`List (key × value)`); map writes never
  create duplicate keys (`mapInsert` replaces in place), matching Go map
  semantics for states built by the hub's operations.
* `time.Time` instants and `time.Duration` spans are measured in
  milliseconds; `t1.After t2` is `t2 < t1` and `t1.Before t2` is `t1 < t2`.
* Pointer identity of sessions (Go compares `*controllerSession`
  pointers) is modelled by a `ref : Nat` allocation tag.
* `crypto/rand` token generation is modelled by passing the fresh token
  value as an explicit argument.
-/

/-- Go string, as its sequence of runes; a rune is its Unicode code
point, a natural number. -/
abbrev GoStr := List Nat

/-- Convenience conversion from a Lean string literal to the rune-list model. -/
def str (s : String) : GoStr := s.data.map Char.toNat

/-- Membership of a rune in Unicode White_Space, the class trimmed by
Go's strings.TrimSpace (via unicode.IsSpace). -/
def isSpaceRune (r : Nat) : Bool :=
  decide (r = 9 ∨ r = 10 ∨ r = 11 ∨ r = 12 ∨ r = 13 ∨ r = 32 ∨ r = 133 ∨ r = 160 ∨
    r = 5760 ∨ (8192 ≤ r ∧ r ≤ 8202) ∨ r = 8232 ∨ r = 8233 ∨ r = 8239 ∨ r = 8287 ∨
    r = 12288)

/-- Go strings.TrimSpace: drop leading and trailing white space. -/
def trimSpace (s : GoStr) : GoStr :=
  ((s.dropWhile isSpaceRune).reverse.dropWhile isSpaceRune).reverse

/-- Rune-wise lower-casing as performed by Go strings.ToLower on the
ASCII range (the hub only ever lower-cases slot ids and roles, which the
registration path then validates against an ASCII-only pattern). -/
def toLowerRune (r : Nat) : Nat := if 65 ≤ r ∧ r ≤ 90 then r + 32 else r

/-- Go strings.ToLower on the rune-list model. -/
def toLower (s : GoStr) : GoStr := s.map toLowerRune

/-- Character class [a-z0-9_-] of the controller id pattern. -/
def isSlotRune (r : Nat) : Bool :=
  decide ((97 ≤ r ∧ r ≤ 122) ∨ (48 ≤ r ∧ r ≤ 57) ∨ r = 95 ∨ r = 45)

/-- controllerIDPattern from hub.go: the anchored regular expression
matching between 1 and 32 runes drawn from [a-z0-9_-]. -/
def controllerIDPattern (s : GoStr) : Bool :=
  decide (1 ≤ s.length ∧ s.length ≤ 32) && s.all isSlotRune

/-! Association-list model of Go maps. -/

/-- Go map read m[k] returning an optional value. -/
def mapLookup {β : Type} : List (GoStr × β) → GoStr → Option β
  | [], _ => none
  | (k, v) :: rest, key => if k = key then some v else mapLookup rest key

/-- Go map write m[k] = v: replace the binding in place, or append a new
binding when the key is absent. -/
def mapInsert {β : Type} : List (GoStr × β) → GoStr → β → List (GoStr × β)
  | [], key, val => [(key, val)]
  | (k, v) :: rest, key, val =>
      if k = key then (key, val) :: rest else (k, v) :: mapInsert rest key val

/-- Go delete(m, k): remove the binding for the key, if any. -/
def mapErase {β : Type} : List (GoStr × β) → GoStr → List (GoStr × β)
  | [], _ => []
  | (k, v) :: rest, key => if k = key then rest else (k, v) :: mapErase rest key

/-- States reachable by the hub never bind one key twice. -/
def nodupKeys {β : Type} (m : List (GoStr × β)) : Prop := (m.map Prod.fst).Nodup

/-! Data model of the hub (hub.go lines 34-76, 554-610). -/

/-- Persona user carried by a controller token (userProfile in hub.go). -/
structure UserProfile where
  id : GoStr
  name : GoStr
  personality : GoStr
  deriving DecidableEq

/-- Slot binding stored for an issued bearer token (controllerToken in hub.go). -/
structure ControllerToken where
  slotID : GoStr
  user : UserProfile
  expiresAt : Nat
  deriving DecidableEq

/-- Externally visible slot/user record (ControllerAssignment in hub.go). -/
structure ControllerAssignment where
  slotID : GoStr
  userID : GoStr
  name : GoStr
  personality : GoStr
  connected : Bool
  lastSeen : Nat
  tokenExpiresAt : Nat
  deriving DecidableEq

/-- Zero value of ControllerAssignment, as produced by reading an absent
key of the bySlot map in ControllerAssignments. -/
def emptyAssignment : ControllerAssignment :=
  { slotID := [], userID := [], name := [], personality := [],
    connected := false, lastSeen := 0, tokenExpiresAt := 0 }

/-- Connected controller (controllerSession in hub.go). The ref field is
the allocation tag standing for the Go pointer: two sessions are the same
object exactly when their refs agree. -/
structure ControllerSession where
  ref : Nat
  id : GoStr
  remoteIP : GoStr
  lastSeen : Nat
  user : UserProfile
  deriving DecidableEq

/-- Connected game (gameSession in hub.go). The queue field is the
buffered send channel's contents; closed records that closeOnce has fired,
which cancels the writer context, closes the send channel and closes the
transport with the recorded status and reason. -/
structure GameSession where
  queue : List GoStr
  capacity : Nat
  closed : Bool
  closeStatus : Nat
  closeReason : GoStr
  deriving DecidableEq

/-- WebSocket close codes used by the hub. -/
def statusNormalClosure : Nat := 1000

/-- WebSocket policy-violation close code. -/
def statusPolicyViolation : Nat := 1008

/-- The hub registry state (Hub in hub.go): the controller map, the
optional game session, and the token store. maxControllers is the
cfg.MaxControllers capacity. -/
structure Hub where
  maxControllers : Nat
  controllers : List (GoStr × ControllerSession)
  game : Option GameSession
  tokens : List (GoStr × ControllerToken)
  slotTokens : List (GoStr × GoStr)
  deriving DecidableEq

/-- Error results of resolveControllerToken (errInvalidToken and
errExpiredToken in hub.go). -/
inductive TokenError where
  | invalidToken
  | expiredToken
  deriving DecidableEq

/-- A token entry survives the expiry sweep when expiresAt.After(now). -/
def tokenAlive (now : Nat) (info : ControllerToken) : Bool :=
  decide (now < info.expiresAt)

/-- cleanupExpiredTokensLocked (hub.go 438-448): every tokens entry whose
expiresAt is not after now is deleted, and the slotTokens entry for that
token's slot is deleted as well when it still points at the deleted token.
The Go loop visits each tokens entry once and each deletion decision
depends only on the pre-loop maps, so the loop denotes these two filters. -/
def cleanupExpiredTokensLocked (now : Nat) (h : Hub) : Hub :=
  { h with
    tokens := h.tokens.filter (fun e => tokenAlive now e.2),
    slotTokens := h.slotTokens.filter (fun e =>
      match mapLookup h.tokens e.2 with
      | some info => tokenAlive now info || decide (info.slotID ≠ e.1)
      | none => true) }

/-- IssueControllerToken (hub.go 364-409). The fresh random token value
produced by generateToken is passed in as tokenValue; time.Minute is
60000 in the millisecond embedding. Returns the updated hub, the token
and its absolute expiry. -/
def Hub.issueControllerToken (h : Hub) (now : Nat) (tokenValue : GoStr)
    (slotID userID name personality : GoStr) (ttl : Int) :
    Except GoStr (Hub × GoStr × Nat) :=
  let slotID := toLower (trimSpace slotID)
  let userID := trimSpace userID
  let name := trimSpace name
  let personality := trimSpace personality
  if controllerIDPattern slotID = false then .error (str "invalid slot id")
  else if userID = [] then .error (str "user id required")
  else
    let ttl : Int := if ttl ≤ 0 then 60000 else ttl
    let expiresAt : Nat := now + ttl.toNat
    let profile : UserProfile := { id := userID, name := name, personality := personality }
    let h := cleanupExpiredTokensLocked now h
    let h :=
      match mapLookup h.slotTokens slotID with
      | some previous =>
          if previous = [] then h else { h with tokens := mapErase h.tokens previous }
      | none => h
    let h :=
      { h with
        tokens := mapInsert h.tokens tokenValue
          { slotID := slotID, user := profile, expiresAt := expiresAt },
        slotTokens := mapInsert h.slotTokens slotID tokenValue }
    .ok (h, tokenValue, expiresAt)

/-- resolveControllerToken (hub.go 411-436): trim, reject empty, sweep
expired entries, look the token up; a missing token is errInvalidToken, a
found-but-expired token is evicted and is errExpiredToken, otherwise the
binding is returned. Returns the result together with the updated hub. -/
def Hub.resolveControllerToken (h : Hub) (now : Nat) (token : GoStr) :
    Except TokenError ControllerToken × Hub :=
  let token := trimSpace token
  if token = [] then (.error .invalidToken, h)
  else
    let h := cleanupExpiredTokensLocked now h
    match mapLookup h.tokens token with
    | none => (.error .invalidToken, h)
    | some info =>
        if info.expiresAt < now then
          let h := { h with tokens := mapErase h.tokens token }
          let h :=
            match mapLookup h.slotTokens info.slotID with
            | some current =>
                if current = token then
                  { h with slotTokens := mapErase h.slotTokens info.slotID }
                else h
            | none => h
          (.error .expiredToken, h)
        else (.ok info, h)

/-- addController (hub.go 529-544): replace the session already holding
the slot and hand it back, or reject when the controller map is full, or
insert. The error value is the message of the Go error. -/
def Hub.addController (h : Hub) (session : ControllerSession) :
    Except GoStr (Hub × Option ControllerSession) :=
  match mapLookup h.controllers session.id with
  | some existing =>
      .ok ({ h with controllers := mapInsert h.controllers session.id session }, some existing)
  | none =>
      if h.maxControllers ≤ h.controllers.length then
        .error (str "controller limit reached")
      else
        .ok ({ h with controllers := mapInsert h.controllers session.id session }, none)

/-- removeController (hub.go 546-552): delete the slot's entry only when
the current entry is pointer-identical to the leaving session. -/
def Hub.removeController (h : Hub) (id : GoStr) (session : ControllerSession) : Hub :=
  match mapLookup h.controllers id with
  | some current =>
      if current.ref = session.ref then
        { h with controllers := mapErase h.controllers id }
      else h
  | none => h

/-- newGameSession (hub.go 596-610): a fresh session with an empty queue;
a non-positive configured queue size falls back to 32. -/
def newGameSession (queueSize : Int) : GameSession :=
  { queue := [],
    capacity := if queueSize ≤ 0 then 32 else queueSize.toNat,
    closed := false, closeStatus := 0, closeReason := [] }

/-- gameSession.close (hub.go 656-662): guarded by closeOnce, it cancels
the writer context, closes the send channel and closes the transport with
the given status and reason. A later call is a no-op. -/
def GameSession.close (g : GameSession) (status : Nat) (reason : GoStr) : GameSession :=
  if g.closed then g
  else { g with closed := true, closeStatus := status, closeReason := reason }

/-- gameSession.enqueue (hub.go 635-654) with no concurrent consumer.
The payload is copied (value semantics make the copy implicit) and pushed
with a non-blocking send; on a full queue the oldest element is received
and dropped and the send is retried, dropping the newest on a second
failure. The two booleans are the queue_drop_oldest and queue_drop_latest
log events. A send case on a closed Go channel is ready and panics when
chosen, so enqueue on a closed session faults with the Go runtime message. -/
def GameSession.enqueue (g : GameSession) (payload : GoStr) :
    Except GoStr (GameSession × Bool × Bool) :=
  if g.closed then .error (str "send on closed channel")
  else if g.queue.length < g.capacity then
    .ok ({ g with queue := g.queue ++ [payload] }, false, false)
  else
    match g.queue with
    | [] => .ok (g, false, true)
    | _ :: rest =>
        if rest.length < g.capacity then
          .ok ({ g with queue := rest ++ [payload] }, true, false)
        else
          .ok ({ g with queue := rest }, true, true)

/-- Repeated enqueue of a list of payloads, counting queue_drop_oldest
and queue_drop_latest events. -/
def GameSession.enqueueAll (g : GameSession) : List GoStr → Except GoStr (GameSession × Nat × Nat)
  | [] => .ok (g, 0, 0)
  | p :: ps =>
      match g.enqueue p with
      | .error e => .error e
      | .ok (g', oldest, latest) =>
          match g'.enqueueAll ps with
          | .error e => .error e
          | .ok (g'', oldests, latests) =>
              .ok (g'', (if oldest then 1 else 0) + oldests,
                (if latest then 1 else 0) + latests)

/-- Result of Hub.shutdown: the cleared hub, the snapshotted game session
after its close call, the close calls issued on the snapshotted controller
transports, and how long the final select waits. -/
structure ShutdownResult where
  hub : Hub
  closedGame : Option GameSession
  controllerCloses : List (ControllerSession × Nat × GoStr)
  waitMillis : Nat
  deriving DecidableEq

/-- Shutdown (hub.go 153-175): snapshot the game and the controller
sessions under the lock and clear both, then close the game session and
every snapshotted controller transport with "server shutdown", and wait
for the caller's deadline or the fixed 500 ms grace, whichever comes
first. -/
def Hub.shutdown (h : Hub) (deadlineMillis : Nat) : ShutdownResult :=
  let game := h.game
  let controllers := h.controllers.map Prod.snd
  let cleared := { h with game := none, controllers := [] }
  { hub := cleared,
    closedGame := game.map (fun g => g.close statusNormalClosure (str "server shutdown")),
    controllerCloses :=
      controllers.map (fun c => (c, statusNormalClosure, str "server shutdown")),
    waitMillis := min deadlineMillis 500 }

/-- Lexicographic rune-list order used by sort.Strings on slot ids. -/
def lexLe : GoStr → GoStr → Bool
  | [], _ => true
  | _ :: _, [] => false
  | a :: as, b :: bs => if a < b then true else if b < a then false else lexLe as bs

/-- Insertion step of sort.Strings. -/
def insertSorted (s : GoStr) : List GoStr → List GoStr
  | [] => [s]
  | t :: ts => if lexLe s t then s :: t :: ts else t :: insertSorted s ts

/-- sort.Strings on the collected slot ids. -/
def sortStrings : List GoStr → List GoStr
  | [] => []
  | s :: ss => insertSorted s (sortStrings ss)

/-- Token half of the bySlot accumulation in ControllerAssignments
(hub.go 460-471): each unexpired token contributes its slot, user fields
and expiry to the slot's record. -/
def assignTokens (now : Nat) (tokens : List (GoStr × ControllerToken))
    (bySlot : List (GoStr × ControllerAssignment)) : List (GoStr × ControllerAssignment) :=
  tokens.foldl (fun acc e =>
    let token := e.2
    if token.expiresAt < now then acc
    else
      let assign := (mapLookup acc token.slotID).getD emptyAssignment
      mapInsert acc token.slotID
        { assign with
          slotID := token.slotID,
          userID := token.user.id,
          name := token.user.name,
          personality := token.user.personality,
          tokenExpiresAt := token.expiresAt }) bySlot

/-- Controller half of the bySlot accumulation in ControllerAssignments
(hub.go 473-492): each connected session overrides the user fields it has,
marks the slot connected and resets the token expiry. Controller map
entries are never nil, so the nil guard of the loop never fires. -/
def assignControllers (controllers : List (GoStr × ControllerSession))
    (bySlot : List (GoStr × ControllerAssignment)) : List (GoStr × ControllerAssignment) :=
  controllers.foldl (fun acc e =>
    let slotID := e.1
    let session := e.2
    let assign := (mapLookup acc slotID).getD emptyAssignment
    mapInsert acc slotID
      { assign with
        slotID := slotID,
        userID := if session.user.id = [] then assign.userID else session.user.id,
        name := if session.user.name = [] then assign.name else session.user.name,
        personality :=
          if session.user.personality = [] then assign.personality
          else session.user.personality,
        connected := true,
        lastSeen := session.lastSeen,
        tokenExpiresAt := 0 }) bySlot

/-- ControllerAssignments (hub.go 451-507): sweep expired tokens, build
the bySlot map from unexpired tokens and then connected controllers, and
return the records sorted by slot id. The updated hub is returned with
the list because the sweep mutates the token store. -/
def Hub.controllerAssignments (h : Hub) (now : Nat) : Hub × List ControllerAssignment :=
  let h := cleanupExpiredTokensLocked now h
  let bySlot := assignTokens now h.tokens []
  let bySlot := assignControllers h.controllers bySlot
  let slots := sortStrings (bySlot.map Prod.fst)
  (h, slots.map (fun s => (mapLookup bySlot s).getD emptyAssignment))

/-- Assignment view computed from the token store alone, with no game and
no connected controllers: the unexpired tokens are folded into bySlot and
read back sorted by slot id. -/
def tokenOnlyAssignments (now : Nat) (tokens : List (GoStr × ControllerToken)) :
    List ControllerAssignment :=
  let alive := tokens.filter (fun e => tokenAlive now e.2)
  let bySlot := assignTokens now alive []
  (sortStrings (bySlot.map Prod.fst)).map
    (fun s => (mapLookup bySlot s).getD emptyAssignment)

/-- Parsed register frame (registerPayload in hub.go), already trimmed
and lower-cased by readRegister. -/
structure RegisterPayload where
  role : GoStr
  id : GoStr
  token : GoStr
  deriving DecidableEq

/-- Close code and reason with which a handler terminates a connection. -/
structure CloseOutcome where
  status : Nat
  reason : GoStr
  deriving DecidableEq

/-- Close reason computed by handleController for a token resolution
error (hub.go 277-281): the default "invalid controller token" is
replaced by "controller token expired" when the error is errExpiredToken. -/
def tokenErrorReason : TokenError → GoStr
  | .expiredToken => str "controller token expired"
  | .invalidToken => str "invalid controller token"

/-- Registration phase of handleController (hub.go 270-303): when the
register frame carries a token, resolve it; a resolution error closes the
connection with policy violation and the mapped reason; a resolved token
makes the token's slot authoritative and a disagreeing client-supplied id
closes with "token slot mismatch". The resulting controller id must then
be present and well formed. On success the authoritative slot id, the
user profile and the updated hub are returned. -/
def Hub.handleControllerRegister (h : Hub) (now : Nat) (reg : RegisterPayload) :
    Except CloseOutcome (GoStr × UserProfile × Hub) :=
  let authed : Except CloseOutcome (GoStr × UserProfile × Hub) :=
    if reg.token = [] then .ok (reg.id, { id := [], name := [], personality := [] }, h)
    else
      match h.resolveControllerToken now reg.token with
      | (.error e, _) => .error { status := statusPolicyViolation, reason := tokenErrorReason e }
      | (.ok info, h') =>
          if reg.id ≠ [] ∧ reg.id ≠ info.slotID then
            .error { status := statusPolicyViolation, reason := str "token slot mismatch" }
          else .ok (info.slotID, info.user, h')
  match authed with
  | .error c => .error c
  | .ok (controllerID, profile, h') =>
      if controllerID = [] then
        .error { status := statusPolicyViolation, reason := str "controller id required" }
      else if controllerIDPattern controllerID = false then
        .error { status := statusPolicyViolation, reason := str "invalid controller id" }
      else .ok (controllerID, profile, h')

/-- One registry mutation of the controller map: an admitController call
(its result applied to the hub, a failed call leaving it unchanged) or a
removeController call. -/
inductive ControllerOp where
  | admitSession (session : ControllerSession)
  | remove (id : GoStr) (session : ControllerSession)

/-- Effect of one ControllerOp on the hub. -/
def applyControllerOp (h : Hub) : ControllerOp → Hub
  | .admitSession session =>
      match h.addController session with
      | .ok (h', _) => h'
      | .error _ => h
  | .remove id session => h.removeController id session

/-- Effect of a sequence of ControllerOps on the hub. -/
def applyControllerOps (h : Hub) (ops : List ControllerOp) : Hub :=
  ops.foldl applyControllerOp h

/-! Concrete states used to exercise the operations. -/

/-- Sample Persona user. -/
def userW : UserProfile := { id := str "u1", name := str "Ann", personality := str "3" }

/-- Sample connected controller session for slot p1. -/
def sessionW1 : ControllerSession :=
  { ref := 1, id := str "p1", remoteIP := str "203.0.113.5", lastSeen := 0, user := userW }

/-- Replacement session for the same slot p1: equal fields apart from the
allocation tag, as after a reconnect. -/
def sessionW2 : ControllerSession :=
  { ref := 2, id := str "p1", remoteIP := str "203.0.113.5", lastSeen := 0, user := userW }

/-- Sample token binding slot p1 to userW until instant 100. -/
def tokenW : ControllerToken := { slotID := str "p1", user := userW, expiresAt := 100 }

/-- Hub holding one live token for slot p1 and nothing else. -/
def hubW : Hub :=
  { maxControllers := 4, controllers := [], game := none,
    tokens := [(str "tok", tokenW)], slotTokens := [(str "p1", str "tok")] }

/-- Hub holding one token for slot p1 that expires at instant 5. -/
def hubExpired : Hub :=
  { maxControllers := 4, controllers := [], game := none,
    tokens := [(str "tok", { slotID := str "p1", user := userW, expiresAt := 5 })],
    slotTokens := [(str "p1", str "tok")] }

/-- Hub with a connected game, one connected controller on slot p1 and an
unexpired token reserving slot p2. -/
def hubC7 : Hub :=
  { maxControllers := 4, controllers := [(str "p1", sessionW1)], game := some (newGameSession 2),
    tokens := [(str "tok2", { slotID := str "p2", user := userW, expiresAt := 1000 })],
    slotTokens := [(str "p2", str "tok2")] }

/-- Controller session for slot p2. -/
def sessionW3 : ControllerSession :=
  { ref := 3, id := str "p2", remoteIP := str "203.0.113.7", lastSeen := 0, user := userW }

/-- Hub at its controller capacity: MaxControllers is 1 and slot p1 is taken. -/
def hubFull : Hub :=
  { maxControllers := 1, controllers := [(str "p1", sessionW1)], game := none,
    tokens := [], slotTokens := [] }

/-! Lemmas about the association-list map model. -/

theorem mapLookup_insert_self {β : Type} (m : List (GoStr × β)) (k : GoStr) (v : β) :
    mapLookup (mapInsert m k v) k = some v := by
  induction m with
  | nil => simp [mapInsert, mapLookup]
  | cons e rest ih =>
      obtain ⟨k', v'⟩ := e
      by_cases h : k' = k
      · simp [mapInsert, h, mapLookup]
      · simp [mapInsert, h, mapLookup, ih]

theorem mapLookup_insert_ne {β : Type} (m : List (GoStr × β)) (k k' : GoStr) (v : β)
    (h : k' ≠ k) : mapLookup (mapInsert m k v) k' = mapLookup m k' := by
  have hkk : k ≠ k' := Ne.symm h
  induction m with
  | nil => simp [mapInsert, mapLookup, hkk]
  | cons e rest ih =>
      obtain ⟨k₀, v₀⟩ := e
      by_cases hk : k₀ = k
      · subst hk
        simp [mapInsert, mapLookup, hkk]
      · simp [mapInsert, hk, mapLookup, ih]

theorem length_mapInsert_of_some {β : Type} (m : List (GoStr × β)) (k : GoStr) (v v' : β)
    (h : mapLookup m k = some v') : (mapInsert m k v).length = m.length := by
  induction m with
  | nil => simp [mapLookup] at h
  | cons e rest ih =>
      obtain ⟨k₀, v₀⟩ := e
      by_cases hk : k₀ = k
      · simp [mapInsert, hk]
      · simp [mapLookup, hk] at h
        simp [mapInsert, hk, ih h]

theorem length_mapInsert_of_none {β : Type} (m : List (GoStr × β)) (k : GoStr) (v : β)
    (h : mapLookup m k = none) : (mapInsert m k v).length = m.length + 1 := by
  induction m with
  | nil => simp [mapInsert]
  | cons e rest ih =>
      obtain ⟨k₀, v₀⟩ := e
      by_cases hk : k₀ = k
      · simp [mapLookup, hk] at h
      · simp [mapLookup, hk] at h
        simp [mapInsert, hk, ih h]

theorem length_mapErase_le {β : Type} (m : List (GoStr × β)) (k : GoStr) :
    (mapErase m k).length ≤ m.length := by
  induction m with
  | nil => simp [mapErase]
  | cons e rest ih =>
      obtain ⟨k₀, v₀⟩ := e
      by_cases hk : k₀ = k
      · simp [mapErase, hk]
      · simpa [mapErase, hk] using ih

theorem mapLookup_mem {β : Type} (m : List (GoStr × β)) (k : GoStr) (v : β)
    (h : mapLookup m k = some v) : (k, v) ∈ m := by
  induction m with
  | nil => simp [mapLookup] at h
  | cons e rest ih =>
      obtain ⟨k₀, v₀⟩ := e
      by_cases hk : k₀ = k
      · subst hk
        simp [mapLookup] at h
        simp [h]
      · simp [mapLookup, hk] at h
        simp [ih h]

theorem mapLookup_erase_self_of_nodup {β : Type} (m : List (GoStr × β)) (k : GoStr)
    (h : nodupKeys m) : mapLookup (mapErase m k) k = none := by
  induction m with
  | nil => simp [mapErase, mapLookup]
  | cons e rest ih =>
      obtain ⟨k₀, v₀⟩ := e
      simp [nodupKeys] at h
      by_cases hk : k₀ = k
      · subst hk
        simp only [mapErase, if_pos rfl]
        cases hrest : mapLookup rest k₀ with
        | none => exact hrest
        | some v => exact absurd (mapLookup_mem rest k₀ v hrest) (h.1 v)
      · simp only [mapErase, if_neg hk, mapLookup, if_neg hk]
        exact ih h.2

theorem mapLookup_erase_of_none {β : Type} (m : List (GoStr × β)) (k k' : GoStr)
    (h : mapLookup m k = none) : mapLookup (mapErase m k') k = none := by
  induction m with
  | nil => simp [mapErase, mapLookup]
  | cons e rest ih =>
      obtain ⟨k₀, v₀⟩ := e
      by_cases hk : k₀ = k
      · simp [mapLookup, hk] at h
      · simp [mapLookup, hk] at h
        by_cases hk' : k₀ = k'
        · simpa [mapErase, hk'] using h
        · simp [mapErase, hk', mapLookup, hk]
          exact ih h

theorem mapLookup_filter_of_lookup {β : Type} (m : List (GoStr × β)) (k : GoStr) (v : β)
    (p : GoStr × β → Bool) (h : mapLookup m k = some v) (hp : p (k, v) = true) :
    mapLookup (m.filter p) k = some v := by
  induction m with
  | nil => simp [mapLookup] at h
  | cons e rest ih =>
      obtain ⟨k₀, v₀⟩ := e
      by_cases hk : k₀ = k
      · subst hk
        simp [mapLookup] at h
        subst h
        simp [List.filter, hp, mapLookup]
      · simp [mapLookup, hk] at h
        cases hpe : p (k₀, v₀) with
        | true => simp [List.filter, hpe, mapLookup, hk, ih h]
        | false => simp [List.filter, hpe, ih h]

theorem mapLookup_filter_some {β : Type} (m : List (GoStr × β)) (k : GoStr) (v : β)
    (p : GoStr × β → Bool) (h : mapLookup (m.filter p) k = some v) : p (k, v) = true := by
  induction m with
  | nil => simp [mapLookup] at h
  | cons e rest ih =>
      obtain ⟨k₀, v₀⟩ := e
      cases hpe : p (k₀, v₀) with
      | true =>
          by_cases hk : k₀ = k
          · subst hk
            simp [List.filter, hpe, mapLookup] at h
            subst h
            exact hpe
          · simp [List.filter, hpe, mapLookup, hk] at h
            exact ih h
      | false =>
          simp [List.filter, hpe] at h
          exact ih h

theorem mapLookup_filter_of_none {β : Type} (m : List (GoStr × β)) (k : GoStr)
    (p : GoStr × β → Bool) (h : mapLookup m k = none) :
    mapLookup (m.filter p) k = none := by
  induction m with
  | nil => simp [mapLookup]
  | cons e rest ih =>
      obtain ⟨k₀, v₀⟩ := e
      by_cases hk : k₀ = k
      · simp [mapLookup, hk] at h
      · simp [mapLookup, hk] at h
        cases hpe : p (k₀, v₀) with
        | true => simp [List.filter, hpe, mapLookup, hk, ih h]
        | false => simp [List.filter, hpe, ih h]

theorem mapLookup_filter_none_of_fail {β : Type} (m : List (GoStr × β)) (k : GoStr) (v : β)
    (p : GoStr × β → Bool) (hnd : nodupKeys m) (h : mapLookup m k = some v)
    (hp : p (k, v) = false) : mapLookup (m.filter p) k = none := by
  induction m with
  | nil => simp [mapLookup] at h
  | cons e rest ih =>
      obtain ⟨k₀, v₀⟩ := e
      simp [nodupKeys] at hnd
      by_cases hk : k₀ = k
      · subst hk
        simp [mapLookup] at h
        subst h
        simp [List.filter, hp]
        have hnone : mapLookup rest k₀ = none := by
          cases hrest : mapLookup rest k₀ with
          | none => rfl
          | some w => exact absurd (mapLookup_mem rest k₀ w hrest) (hnd.1 w)
        exact mapLookup_filter_of_none rest k₀ p hnone
      · simp [mapLookup, hk] at h
        cases hpe : p (k₀, v₀) with
        | true => simp [List.filter, hpe, mapLookup, hk, ih hnd.2 h]
        | false => simp [List.filter, hpe, ih hnd.2 h]

theorem nodupKeys_filter {β : Type} (m : List (GoStr × β)) (p : GoStr × β → Bool)
    (h : nodupKeys m) : nodupKeys (m.filter p) := by
  have hs : (m.filter p).Sublist m := List.filter_sublist m
  exact List.Nodup.sublist (hs.map Prod.fst) h

/-! Helper lemmas about the controller map operations. -/

theorem applyControllerOp_maxControllers (h : Hub) (op : ControllerOp) :
    (applyControllerOp h op).maxControllers = h.maxControllers := by
  cases op with
  | admitSession s =>
      cases hl : mapLookup h.controllers s.id with
      | some existing => simp [applyControllerOp, Hub.addController, hl]
      | none =>
          by_cases hc : h.maxControllers ≤ h.controllers.length
          · simp [applyControllerOp, Hub.addController, hl, hc]
          · simp [applyControllerOp, Hub.addController, hl, hc]
  | remove id s =>
      cases hl : mapLookup h.controllers id with
      | some current =>
          by_cases hr : current.ref = s.ref
          · simp [applyControllerOp, Hub.removeController, hl, hr]
          · simp [applyControllerOp, Hub.removeController, hl, hr]
      | none => simp [applyControllerOp, Hub.removeController, hl]

theorem applyControllerOp_length_le (h : Hub) (op : ControllerOp)
    (hinv : h.controllers.length ≤ h.maxControllers) :
    (applyControllerOp h op).controllers.length ≤ h.maxControllers := by
  cases op with
  | admitSession s =>
      cases hl : mapLookup h.controllers s.id with
      | some existing =>
          simpa [applyControllerOp, Hub.addController, hl,
            length_mapInsert_of_some h.controllers s.id s existing hl] using hinv
      | none =>
          by_cases hc : h.maxControllers ≤ h.controllers.length
          · simpa [applyControllerOp, Hub.addController, hl, hc] using hinv
          · simp [applyControllerOp, Hub.addController, hl, hc,
              length_mapInsert_of_none h.controllers s.id s hl]
            omega
  | remove id s =>
      cases hl : mapLookup h.controllers id with
      | some current =>
          by_cases hr : current.ref = s.ref
          · simp [applyControllerOp, Hub.removeController, hl, hr]
            exact le_trans (length_mapErase_le h.controllers id) hinv
          · simpa [applyControllerOp, Hub.removeController, hl, hr] using hinv
      | none => simpa [applyControllerOp, Hub.removeController, hl] using hinv

theorem applyControllerOps_length_le : ∀ (ops : List ControllerOp) (h : Hub),
    h.controllers.length ≤ h.maxControllers →
    (applyControllerOps h ops).controllers.length ≤ h.maxControllers := by
  intro ops
  induction ops with
  | nil => intro h hinv; simpa [applyControllerOps] using hinv
  | cons op ops ih =>
      intro h hinv
      have h1 := applyControllerOp_length_le h op hinv
      have h2 := applyControllerOp_maxControllers h op
      have h3 := ih (applyControllerOp h op) (by rw [h2]; exact h1)
      rw [h2] at h3
      simpa [applyControllerOps, List.foldl] using h3

/-- C2: after close(status, reason) on a game session the send channel is
closed, and a subsequent enqueue chooses the ready send case on the closed
channel and faults with the Go runtime panic "send on closed channel"
instead of returning normally with the payload silently dropped.
The second conjunct evaluates the faulting enqueue at a concrete closed
session. -/
theorem enqueue_after_close_panics :
    (∀ (g : GameSession) (status : Nat) (reason payload : GoStr),
      (g.close status reason).closed = true ∧
      (g.close status reason).enqueue payload = .error (str "send on closed channel")) ∧
    ((newGameSession 2).close statusNormalClosure (str "server shutdown")).enqueue (str "A")
      = .error (str "send on closed channel") := by
  constructor
  · intro g status reason payload
    by_cases hc : g.closed
    · exact ⟨by simp [GameSession.close, hc],
        by simp [GameSession.close, hc, GameSession.enqueue]⟩
    · exact ⟨by simp [GameSession.close, hc],
        by simp [GameSession.close, hc, GameSession.enqueue]⟩
  · rfl

/-- C1: resolveControllerToken can never return the expiredToken error:
the sweep that runs before the lookup already removed every entry with
expiresAt not after now, so a token whose expiry has passed is reported
as invalidToken. The second conjunct evaluates the failing input: a token
expired at instant 5 resolved at instant 10 yields invalidToken. -/
theorem resolveToken_expired_reports_invalid :
    (∀ (h : Hub) (now : Nat) (token : GoStr),
      (h.resolveControllerToken now token).1 ≠ Except.error TokenError.expiredToken) ∧
    (hubExpired.resolveControllerToken 10 (str "tok")).1
      = Except.error TokenError.invalidToken := by
  constructor
  · intro h now token
    by_cases h0 : trimSpace token = []
    · simp [Hub.resolveControllerToken, h0]
    · cases hm : mapLookup (h.tokens.filter fun e => tokenAlive now e.2) (trimSpace token) with
      | none => simp [Hub.resolveControllerToken, cleanupExpiredTokensLocked, h0, hm]
      | some info =>
          have halive := mapLookup_filter_some h.tokens (trimSpace token) info _ hm
          have hlt : ¬ info.expiresAt < now := by
            simp [tokenAlive] at halive
            omega
          simp [Hub.resolveControllerToken, cleanupExpiredTokensLocked, h0, hm, hlt]
  · rfl

/-- C10: removeController deletes the slot's entry exactly when the
current entry is pointer-identical to the given session; a different
current session, or an absent entry, leaves the hub (and in particular
the controllers map) completely unchanged. -/
theorem removeController_identity_only :
    ∀ (h : Hub) (id : GoStr) (session current : ControllerSession),
      (mapLookup h.controllers id = some current → current.ref = session.ref →
        h.removeController id session = { h with controllers := mapErase h.controllers id }) ∧
      (mapLookup h.controllers id = some current → current.ref ≠ session.ref →
        h.removeController id session = h) ∧
      (mapLookup h.controllers id = none → h.removeController id session = h) := by
  intro h id session current
  refine ⟨?_, ?_, ?_⟩
  · intro hl hr
    simp [Hub.removeController, hl, hr]
  · intro hl hr
    simp [Hub.removeController, hl, hr]
  · intro hl
    simp [Hub.removeController, hl]

/-- Witness for C10: removing the present session deletes the entry;
removing an old session after a replacement, or on an empty map, changes
nothing. -/
theorem removeController_identity_only_witness :
    (Hub.removeController { hubW with controllers := [(str "p1", sessionW1)] }
        (str "p1") sessionW1
      = { { hubW with controllers := [(str "p1", sessionW1)] } with
          controllers := mapErase [(str "p1", sessionW1)] (str "p1") }) ∧
    (Hub.removeController { hubW with controllers := [(str "p1", sessionW2)] }
        (str "p1") sessionW1
      = { hubW with controllers := [(str "p1", sessionW2)] }) ∧
    (Hub.removeController hubW (str "p1") sessionW1 = hubW) :=
  ⟨(removeController_identity_only { hubW with controllers := [(str "p1", sessionW1)] }
      (str "p1") sessionW1 sessionW1).1 (by decide) rfl,
   (removeController_identity_only { hubW with controllers := [(str "p1", sessionW2)] }
      (str "p1") sessionW1 sessionW2).2.1 (by decide) (by decide),
   (removeController_identity_only hubW (str "p1") sessionW1 sessionW1).2.2 (by decide)⟩

/-- C3: admitController replaces the session of an already-claimed slot
and hands the previous one back with no capacity check, rejects a new
slot when the map already holds MaxControllers entries, inserts a new
slot below capacity, and any sequence of admit and remove calls keeps the
controller map within MaxControllers. -/
theorem admitController_capacity (h : Hub) (s old : ControllerSession)
    (ops : List ControllerOp) :
    (mapLookup h.controllers s.id = some old →
      h.addController s =
        .ok ({ h with controllers := mapInsert h.controllers s.id s }, some old)) ∧
    (mapLookup h.controllers s.id = none → h.maxControllers ≤ h.controllers.length →
      h.addController s = .error (str "controller limit reached")) ∧
    (mapLookup h.controllers s.id = none → h.controllers.length < h.maxControllers →
      h.addController s =
        .ok ({ h with controllers := mapInsert h.controllers s.id s }, none)) ∧
    (h.controllers.length ≤ h.maxControllers →
      (applyControllerOps h ops).controllers.length ≤ h.maxControllers) := by
  refine ⟨?_, ?_, ?_, ?_⟩
  · intro hl
    simp [Hub.addController, hl]
  · intro hl hc
    simp [Hub.addController, hl, hc]
  · intro hl hc
    have hc' : ¬ h.maxControllers ≤ h.controllers.length := by omega
    simp [Hub.addController, hl, hc']
  · exact applyControllerOps_length_le ops h

/-- Witness for C3: a hub at capacity 1 accepts a replacement for its
occupied slot, rejects a new slot, accepts the new slot once emptied, and
an admit-remove sequence keeps the size within capacity. -/
theorem admitController_capacity_witness :
    (hubFull.addController sessionW2 =
      .ok ({ hubFull with
             controllers := mapInsert hubFull.controllers sessionW2.id sessionW2 },
        some sessionW1)) ∧
    (hubFull.addController sessionW3 = .error (str "controller limit reached")) ∧
    ({ hubFull with controllers := [] }.addController sessionW3 =
      .ok ({ { hubFull with controllers := [] } with
             controllers := mapInsert [] sessionW3.id sessionW3 }, none)) ∧
    (List.length (Hub.controllers (applyControllerOps hubFull
        [ControllerOp.admitSession sessionW3, ControllerOp.remove (str "p1") sessionW1]))
      ≤ hubFull.maxControllers) :=
  ⟨(admitController_capacity hubFull sessionW2 sessionW1 []).1 (by decide),
   (admitController_capacity hubFull sessionW3 sessionW1 []).2.1 (by decide) (by decide),
   (admitController_capacity { hubFull with controllers := [] } sessionW3 sessionW1 []).2.2.1
     (by decide) (by decide),
   (admitController_capacity hubFull sessionW3 sessionW1
     [ControllerOp.admitSession sessionW3, ControllerOp.remove (str "p1") sessionW1]).2.2.2
     (by decide)⟩

/-- One open-channel enqueue with the queue within capacity: the new
payload is appended and the queue trimmed to the last capacity elements
(dropping the oldest when the queue was full); drop-latest never fires. -/
theorem enqueue_step (g : GameSession) (p : GoStr) (hc : g.closed = false)
    (hcap : 1 ≤ g.capacity) (hlen : g.queue.length ≤ g.capacity) :
    ∃ o, g.enqueue p =
      .ok ({ g with queue := (g.queue ++ [p]).drop (g.queue.length + 1 - g.capacity) },
        o, false) ∧
      ((g.queue ++ [p]).drop (g.queue.length + 1 - g.capacity)).length ≤ g.capacity := by
  by_cases hlt : g.queue.length < g.capacity
  · have h0 : g.queue.length + 1 - g.capacity = 0 := by omega
    refine ⟨false, ?_, ?_⟩
    · simp [GameSession.enqueue, hc, hlt, h0]
    · simp [h0]
      omega
  · have heq : g.queue.length = g.capacity := by omega
    cases hq : g.queue with
    | nil =>
        rw [hq] at heq
        simp at heq
        omega
    | cons a rest =>
        have h1 : g.queue.length + 1 - g.capacity = 1 := by omega
        have hrlen : rest.length + 1 = g.capacity := by
          rw [hq] at heq
          simpa using heq
        have hrest : rest.length < g.capacity := by omega
        have hlt2 : ¬ (rest.length + 1 < g.capacity) := by omega
        have h1' : rest.length + 1 + 1 - g.capacity = 1 := by omega
        refine ⟨true, ?_, ?_⟩
        · simp [GameSession.enqueue, hc, hq, hlt2, hrest, h1']
        · simp [hq, h1]
          omega

/-- Sustained enqueue on an open session with no consumer: the resulting
queue is the concatenation of the old queue and the payloads, trimmed to
its last capacity elements. -/
theorem enqueueAll_fifo : ∀ (ps : List GoStr) (g : GameSession),
    g.closed = false → 1 ≤ g.capacity → g.queue.length ≤ g.capacity →
    ∃ o l, g.enqueueAll ps =
      .ok ({ g with
          queue := (g.queue ++ ps).drop (g.queue.length + ps.length - g.capacity) },
        o, l) := by
  intro ps
  induction ps with
  | nil =>
      intro g hc hcap hlen
      refine ⟨0, 0, ?_⟩
      have h0 : g.queue.length - g.capacity = 0 := by omega
      simp only [GameSession.enqueueAll, List.append_nil, List.length_nil, Nat.add_zero, h0,
        List.drop_zero]
  | cons p ps ih =>
      intro g hc hcap hlen
      obtain ⟨o1, hstep, hinv⟩ := enqueue_step g p hc hcap hlen
      obtain ⟨o, l, hall⟩ :=
        ih { g with queue := (g.queue ++ [p]).drop (g.queue.length + 1 - g.capacity) }
          hc hcap hinv
      refine ⟨(if o1 then 1 else 0) + o, l, ?_⟩
      have ha : g.queue.length + 1 - g.capacity ≤ (g.queue ++ [p]).length := by
        simp
      have hqueue :
          List.drop
              (g.queue.length + 1 - (g.queue.length + 1 - g.capacity) + ps.length - g.capacity)
              (List.drop (g.queue.length + 1 - g.capacity) (g.queue ++ [p]) ++ ps)
            = List.drop (g.queue.length + (ps.length + 1) - g.capacity) (g.queue ++ p :: ps) := by
        rw [← List.drop_append_of_le_length ha, List.drop_drop]
        have hassoc : (g.queue ++ [p]) ++ ps = g.queue ++ p :: ps := by simp
        rw [hassoc]
        congr 1
        omega
      simp only [GameSession.enqueueAll, hstep, hall]
      simp
      exact hqueue

/-- C4: under sustained enqueue with no consumer on an open session, the
queue never exceeds its fixed capacity and holds exactly the most recently
enqueued payloads in FIFO order (the tail of old-queue-plus-payloads of
length at most capacity); with capacity 2, enqueueing A, B, C, D leaves
exactly C then D, with two drop-oldest events and no drop-latest event. -/
theorem relay_queue_drop_oldest :
    (∀ (ps : List GoStr) (g : GameSession),
      g.closed = false → 1 ≤ g.capacity → g.queue.length ≤ g.capacity →
      ∃ g' o l, g.enqueueAll ps = .ok (g', o, l) ∧
        g'.queue = (g.queue ++ ps).drop (g.queue.length + ps.length - g.capacity) ∧
        g'.queue.length ≤ g.capacity) ∧
    ((newGameSession 2).enqueueAll [str "A", str "B", str "C", str "D"] =
      .ok ({ newGameSession 2 with queue := [str "C", str "D"] }, 2, 0)) := by
  constructor
  · intro ps g hc hcap hlen
    obtain ⟨o, l, hall⟩ := enqueueAll_fifo ps g hc hcap hlen
    refine ⟨_, o, l, hall, rfl, ?_⟩
    simp
    omega
  · rfl

/-- Witness for C4: three payloads into a fresh capacity-2 session. -/
theorem relay_queue_drop_oldest_witness :
    ∃ g' o l, (newGameSession 2).enqueueAll [str "A", str "B", str "C"] = .ok (g', o, l) ∧
      g'.queue = ((newGameSession 2).queue ++ [str "A", str "B", str "C"]).drop
        ((newGameSession 2).queue.length + [str "A", str "B", str "C"].length
          - (newGameSession 2).capacity) ∧
      g'.queue.length ≤ (newGameSession 2).capacity :=
  relay_queue_drop_oldest.1 [str "A", str "B", str "C"] (newGameSession 2) rfl (by decide)
    (by decide)

/-! Normalisation facts: a string matching controllerIDPattern is fixed
by the TrimSpace and ToLower preprocessing of the registration paths. -/

theorem slotRune_not_space (r : Nat) (h : isSlotRune r = true) : isSpaceRune r = false := by
  simp [isSlotRune] at h
  simp [isSpaceRune]
  omega

theorem slotRune_toLower (r : Nat) (h : isSlotRune r = true) : toLowerRune r = r := by
  simp [isSlotRune] at h
  have hnc : ¬ (65 ≤ r ∧ r ≤ 90) := by omega
  simp [toLowerRune, hnc]

theorem dropWhile_space_eq_self (s : GoStr) (h : ∀ r ∈ s, isSpaceRune r = false) :
    s.dropWhile isSpaceRune = s := by
  cases s with
  | nil => rfl
  | cons a t =>
      have ha : isSpaceRune a = false := h a (by simp)
      simp [List.dropWhile_cons, ha]

theorem trimSpace_eq_self (s : GoStr) (h : ∀ r ∈ s, isSpaceRune r = false) :
    trimSpace s = s := by
  unfold trimSpace
  rw [dropWhile_space_eq_self s h]
  rw [dropWhile_space_eq_self s.reverse (fun r hr => h r (List.mem_reverse.mp hr))]
  exact List.reverse_reverse s

theorem toLower_eq_self : ∀ (s : GoStr), (∀ r ∈ s, isSlotRune r = true) → toLower s = s := by
  intro s
  induction s with
  | nil => intro _; rfl
  | cons a t ih =>
      intro h
      have ha := slotRune_toLower a (h a (by simp))
      have ht := ih (fun r hr => h r (by simp [hr]))
      simp [toLower] at ht
      simp [toLower, ha, ht]

theorem pattern_chars (s : GoStr) (h : controllerIDPattern s = true) :
    ∀ r ∈ s, isSlotRune r = true := by
  simp [controllerIDPattern] at h
  intro r hr
  exact h.2 r hr

theorem pattern_ne_nil (s : GoStr) (h : controllerIDPattern s = true) : s ≠ [] := by
  intro h0
  subst h0
  simp [controllerIDPattern] at h

theorem normalize_slot_id (s : GoStr) (h : controllerIDPattern s = true) :
    toLower (trimSpace s) = s := by
  have hc := pattern_chars s h
  rw [trimSpace_eq_self s (fun r hr => slotRune_not_space r (hc r hr))]
  exact toLower_eq_self s hc

/-! Helper lemmas about resolveControllerToken. -/

/-- A stored unexpired binding resolves to itself. -/
theorem resolve_ok_of_alive (h : Hub) (now : Nat) (tok : GoStr) (info : ControllerToken)
    (htrim : trimSpace tok = tok) (hne : tok ≠ [])
    (hlk : mapLookup h.tokens tok = some info) (halive : now < info.expiresAt) :
    (h.resolveControllerToken now tok).1 = .ok info := by
  have hfl : mapLookup (h.tokens.filter fun e => tokenAlive now e.2) tok = some info :=
    mapLookup_filter_of_lookup h.tokens tok info _ hlk (by simpa [tokenAlive] using halive)
  have hlt : ¬ info.expiresAt < now := by omega
  simp [Hub.resolveControllerToken, cleanupExpiredTokensLocked, htrim, hne, hfl, hlt]

/-- A token absent from the store resolves to invalidToken. -/
theorem resolve_invalid_of_none (h : Hub) (now : Nat) (tok : GoStr)
    (htrim : trimSpace tok = tok) (hne : tok ≠ [])
    (hlk : mapLookup h.tokens tok = none) :
    (h.resolveControllerToken now tok).1 = .error .invalidToken := by
  simp [Hub.resolveControllerToken, cleanupExpiredTokensLocked, htrim, hne,
    mapLookup_filter_of_none h.tokens tok _ hlk]

/-- The value returned by resolveControllerToken depends only on the token
store, not on the controller map or the game reference. -/
theorem resolve_fst_congr (h1 h2 : Hub) (now : Nat) (tok : GoStr)
    (ht : h1.tokens = h2.tokens) :
    (h1.resolveControllerToken now tok).1 = (h2.resolveControllerToken now tok).1 := by
  by_cases h0 : trimSpace tok = []
  · simp [Hub.resolveControllerToken, h0]
  · cases hm : mapLookup (h2.tokens.filter fun e => tokenAlive now e.2) (trimSpace tok) with
    | none => simp [Hub.resolveControllerToken, cleanupExpiredTokensLocked, h0, ht, hm]
    | some info =>
        by_cases hexp : info.expiresAt < now
        · simp [Hub.resolveControllerToken, cleanupExpiredTokensLocked, h0, ht, hm, hexp]
        · simp [Hub.resolveControllerToken, cleanupExpiredTokensLocked, h0, ht, hm, hexp]

/-- C5: for a pattern-valid slot id, a trim-fixed user profile with a
non-empty id, a positive ttl and a trim-fixed non-empty fresh token value,
a successful issueToken immediately followed by resolveToken on the
returned token yields the stored binding: the same slot id, the same user
profile and the expiry now + ttl. -/
theorem token_roundtrip (h : Hub) (now : Nat) (tv s : GoStr) (u : UserProfile) (ttl : Int)
    (hpat : controllerIDPattern s = true)
    (hid : trimSpace u.id = u.id) (hidne : u.id ≠ [])
    (hname : trimSpace u.name = u.name) (hpers : trimSpace u.personality = u.personality)
    (httl : 0 < ttl) (htv : trimSpace tv = tv) (htvne : tv ≠ []) :
    ∃ h', h.issueControllerToken now tv s u.id u.name u.personality ttl
        = .ok (h', tv, now + ttl.toNat) ∧
      (h'.resolveControllerToken now tv).1
        = .ok { slotID := s, user := u, expiresAt := now + ttl.toNat } := by
  have hnorm := normalize_slot_id s hpat
  have httl2 : ¬ ttl ≤ 0 := by omega
  simp only [Hub.issueControllerToken, hnorm, hpat, hid, hname, hpers, httl2, if_false,
    Bool.true_eq_false, if_neg hidne, ite_false]
  refine ⟨_, rfl, ?_⟩
  exact resolve_ok_of_alive _ now tv _ htv htvne (mapLookup_insert_self _ tv _)
    (by show now < now + ttl.toNat; omega)

/-- Witness for C5: issue a token for slot p1 and user u1 with a 60-unit
ttl on a concrete hub, then resolve it at the same instant. -/
theorem token_roundtrip_witness :
    ∃ h', Hub.issueControllerToken hubW 0 (str "t2") (str "p1")
        userW.id userW.name userW.personality 60
        = .ok (h', str "t2", 0 + (60 : Int).toNat) ∧
      (h'.resolveControllerToken 0 (str "t2")).1
        = .ok { slotID := str "p1", user := userW, expiresAt := 0 + (60 : Int).toNat } :=
  token_roundtrip hubW 0 (str "t2") (str "p1") userW 60 (by decide) (by decide) (by decide)
    (by decide) (by decide) (by decide) (by decide) (by decide)

/-- C8: Shutdown leaves the token store untouched: the tokens and
slotTokens maps are unchanged, resolveControllerToken returns the same
value after shutdown as before, and an unexpired stored binding still
resolves to itself after shutdown. -/
theorem shutdown_preserves_token_store (h : Hub) (deadline now : Nat) (tok : GoStr)
    (info : ControllerToken) :
    ((h.shutdown deadline).hub.tokens = h.tokens) ∧
    ((h.shutdown deadline).hub.slotTokens = h.slotTokens) ∧
    (((h.shutdown deadline).hub.resolveControllerToken now tok).1
      = (h.resolveControllerToken now tok).1) ∧
    (trimSpace tok = tok → tok ≠ [] → mapLookup h.tokens tok = some info →
      now < info.expiresAt →
      ((h.shutdown deadline).hub.resolveControllerToken now tok).1 = .ok info) := by
  refine ⟨rfl, rfl, ?_, ?_⟩
  · exact resolve_fst_congr _ h now tok rfl
  · intro h1 h2 h3 h4
    exact resolve_ok_of_alive _ now tok info h1 h2 h3 h4

/-- Witness for C8: the unexpired token of hubW still resolves to its
binding after a shutdown with a 5000 deadline. -/
theorem shutdown_preserves_token_store_witness :
    ((hubW.shutdown 5000).hub.resolveControllerToken 0 (str "tok")).1 = .ok tokenW :=
  (shutdown_preserves_token_store hubW 5000 0 (str "tok") tokenW).2.2.2 (by decide)
    (by decide) (by decide) (by decide)

/-- C9: for a register frame with a non-empty token, the registration
phase maps token errors to policy-violation closes with the reasons
"controller token expired" for ExpiredToken and "invalid controller
token" for InvalidToken; on successful resolution the token's slot is
authoritative, and a disagreeing client-supplied id closes with policy
violation and "token slot mismatch". -/
theorem controller_register_token_semantics (h : Hub) (now : Nat) (reg : RegisterPayload)
    (info : ControllerToken) (h' : Hub) (e : TokenError) :
    (tokenErrorReason .expiredToken = str "controller token expired" ∧
      tokenErrorReason .invalidToken = str "invalid controller token") ∧
    (reg.token ≠ [] → h.resolveControllerToken now reg.token = (.error e, h') →
      h.handleControllerRegister now reg =
        .error { status := statusPolicyViolation, reason := tokenErrorReason e }) ∧
    (reg.token ≠ [] → h.resolveControllerToken now reg.token = (.ok info, h') →
      reg.id ≠ [] → reg.id ≠ info.slotID →
      h.handleControllerRegister now reg =
        .error { status := statusPolicyViolation, reason := str "token slot mismatch" }) ∧
    (reg.token ≠ [] → h.resolveControllerToken now reg.token = (.ok info, h') →
      (reg.id = [] ∨ reg.id = info.slotID) → controllerIDPattern info.slotID = true →
      h.handleControllerRegister now reg = .ok (info.slotID, info.user, h')) := by
  refine ⟨⟨rfl, rfl⟩, ?_, ?_, ?_⟩
  · intro ht hres
    simp [Hub.handleControllerRegister, ht, hres]
  · intro ht hres hid1 hid2
    simp [Hub.handleControllerRegister, ht, hres, hid1, hid2]
  · intro ht hres hor hp
    have hnn := pattern_ne_nil info.slotID hp
    cases hor with
    | inl h0 => simp [Hub.handleControllerRegister, ht, hres, h0, hp, hnn]
    | inr h0 => simp [Hub.handleControllerRegister, ht, hres, h0, hp, hnn]

/-- Witness for C9: on a concrete hub whose token binds slot p1, a client
id p2 alongside the token is a "token slot mismatch"; no client id admits
as slot p1 with the token's user; an unknown token closes with the
invalid-token reason. -/
theorem controller_register_token_semantics_witness :
    (Hub.handleControllerRegister hubW 0
        { role := str "controller", id := str "p2", token := str "tok" }
      = .error { status := statusPolicyViolation, reason := str "token slot mismatch" }) ∧
    (Hub.handleControllerRegister hubW 0
        { role := str "controller", id := [], token := str "tok" }
      = .ok (tokenW.slotID, tokenW.user, hubW)) ∧
    (Hub.handleControllerRegister hubW 0
        { role := str "controller", id := [], token := str "bad" }
      = .error { status := statusPolicyViolation, reason := tokenErrorReason .invalidToken }) :=
  ⟨(controller_register_token_semantics hubW 0
      { role := str "controller", id := str "p2", token := str "tok" } tokenW hubW
      TokenError.invalidToken).2.2.1 (by decide) rfl (by decide) (by decide),
   (controller_register_token_semantics hubW 0
      { role := str "controller", id := [], token := str "tok" } tokenW hubW
      TokenError.invalidToken).2.2.2 (by decide) rfl (Or.inl rfl) (by decide),
   (controller_register_token_semantics hubW 0
      { role := str "controller", id := [], token := str "bad" } tokenW hubW
      TokenError.invalidToken).2.1 (by decide) rfl⟩

/-- C6: issuing a second token t2 for slot s deletes the slot's previous
token t1 from the token store: afterwards resolveToken(t1) fails with
invalidToken and slotTokens maps s to t2. The previous token is either
still live (then the issue path explicitly deletes it via the slotTokens
back-pointer) or already expired (then the sweep removed it); either way
it no longer resolves. -/
theorem issue_second_token_invalidates_first (h : Hub) (now : Nat)
    (t1 t2 s uid nm pe : GoStr) (ttl : Int) (info1 : ControllerToken)
    (hnd : nodupKeys h.tokens)
    (hpat : controllerIDPattern s = true)
    (hslot : mapLookup h.slotTokens s = some t1)
    (htok : mapLookup h.tokens t1 = some info1)
    (hne : t1 ≠ t2)
    (ht1trim : trimSpace t1 = t1) (ht1ne : t1 ≠ [])
    (huid : trimSpace uid ≠ []) :
    ∃ h' exp, h.issueControllerToken now t2 s uid nm pe ttl = .ok (h', t2, exp) ∧
      (h'.resolveControllerToken now t1).1 = .error TokenError.invalidToken ∧
      mapLookup h'.slotTokens s = some t2 := by
  have hnorm := normalize_slot_id s hpat
  have hndC : nodupKeys ((cleanupExpiredTokensLocked now h).tokens) := by
    simp only [cleanupExpiredTokensLocked]
    exact nodupKeys_filter _ _ hnd
  simp only [Hub.issueControllerToken, hnorm, hpat, Bool.true_eq_false, if_false,
    if_neg huid]
  by_cases halive : tokenAlive now info1 = true
  · have hkeep : mapLookup ((cleanupExpiredTokensLocked now h).slotTokens) s = some t1 := by
      simp only [cleanupExpiredTokensLocked]
      exact mapLookup_filter_of_lookup h.slotTokens s t1 _ hslot (by simp [htok, halive])
    have ht1gone : mapLookup (mapErase ((cleanupExpiredTokensLocked now h).tokens) t1) t1
        = none := mapLookup_erase_self_of_nodup _ t1 hndC
    rw [hkeep]
    simp only [if_neg ht1ne]
    refine ⟨_, _, rfl, ?_, ?_⟩
    · apply resolve_invalid_of_none _ now t1 ht1trim ht1ne
      simp [mapLookup_insert_ne _ t2 t1 _ hne, ht1gone]
    · simp [mapLookup_insert_self]
  · have hfalse : tokenAlive now info1 = false := by simpa using halive
    have ht1C : mapLookup ((cleanupExpiredTokensLocked now h).tokens) t1 = none := by
      simp only [cleanupExpiredTokensLocked]
      exact mapLookup_filter_none_of_fail h.tokens t1 info1 _ hnd htok (by simp [hfalse])
    cases hprev : mapLookup ((cleanupExpiredTokensLocked now h).slotTokens) s with
    | none =>
        refine ⟨_, _, rfl, ?_, ?_⟩
        · apply resolve_invalid_of_none _ now t1 ht1trim ht1ne
          simp [mapLookup_insert_ne _ t2 t1 _ hne, ht1C]
        · simp [mapLookup_insert_self]
    | some previous =>
        by_cases hpe : previous = []
        · refine ⟨_, _, rfl, ?_, ?_⟩
          · apply resolve_invalid_of_none _ now t1 ht1trim ht1ne
            simp [hpe, mapLookup_insert_ne _ t2 t1 _ hne, ht1C]
          · simp [mapLookup_insert_self]
        · refine ⟨_, _, rfl, ?_, ?_⟩
          · apply resolve_invalid_of_none _ now t1 ht1trim ht1ne
            simp [hpe, mapLookup_insert_ne _ t2 t1 _ hne,
              mapLookup_erase_of_none _ t1 previous ht1C]
          · simp [mapLookup_insert_self]

/-- Witness for C6: hubW maps slot p1 to token "tok"; issuing "t2" for p1
makes "tok" resolve to invalidToken and points slotTokens at "t2". -/
theorem issue_second_token_invalidates_first_witness :
    ∃ h' exp, Hub.issueControllerToken hubW 0 (str "t2") (str "p1")
        (str "u2") (str "Bob") (str "5") 60 = .ok (h', str "t2", exp) ∧
      (h'.resolveControllerToken 0 (str "tok")).1 = .error TokenError.invalidToken ∧
      mapLookup h'.slotTokens (str "p1") = some (str "t2") :=
  issue_second_token_invalidates_first hubW 0 (str "tok") (str "t2") (str "p1")
    (str "u2") (str "Bob") (str "5") 60 tokenW (by unfold nodupKeys; decide) (by decide)
    (by decide) (by decide) (by decide) (by decide) (by decide) (by decide)

/-- Counterexample for C7: after shutting down hubC7, whose token store
still reserves slot p2 with an unexpired token, a subsequent assignments
call does not return the empty list (it reports the token's reservation). -/
theorem shutdown_assignments_not_empty :
    ((Hub.shutdown hubC7 5000).hub.controllerAssignments 0).2 ≠ [] := by decide

/-- C7 (amended): shutdown clears the game reference and the controllers
map, closes the snapshotted game session and every snapshotted controller
transport with status 1000 and reason "server shutdown", waits for the
smaller of the caller's deadline and the fixed 500 ms grace, and a
subsequent assignments() call returns exactly the view derived from the
unexpired tokens remaining in the store, which is the empty list when no
unexpired token remains. -/
theorem shutdown_state_and_assignments (h : Hub) (deadline now : Nat) :
    ((h.shutdown deadline).hub.game = none) ∧
    ((h.shutdown deadline).hub.controllers = []) ∧
    (∀ g, h.game = some g → g.closed = false →
      (h.shutdown deadline).closedGame
        = some { g with
            closed := true,
            closeStatus := statusNormalClosure,
            closeReason := str "server shutdown" }) ∧
    ((h.shutdown deadline).controllerCloses
      = h.controllers.map (fun e => (e.2, statusNormalClosure, str "server shutdown"))) ∧
    ((h.shutdown deadline).waitMillis = min deadline 500) ∧
    (((h.shutdown deadline).hub.controllerAssignments now).2
      = tokenOnlyAssignments now h.tokens) ∧
    (h.tokens.filter (fun e => tokenAlive now e.2) = [] →
      ((h.shutdown deadline).hub.controllerAssignments now).2 = []) := by
  have hassign : ((h.shutdown deadline).hub.controllerAssignments now).2
      = tokenOnlyAssignments now h.tokens := rfl
  refine ⟨rfl, rfl, ?_, ?_, rfl, hassign, ?_⟩
  · intro g hg hclosed
    simp [Hub.shutdown, hg, GameSession.close, hclosed]
  · simp [Hub.shutdown, List.map_map, Function.comp]
  · intro hemp
    rw [hassign]
    simp [tokenOnlyAssignments, hemp, assignTokens, sortStrings]

/-- Witness for C7: the snapshotted game of hubC7 is closed with reason
"server shutdown", and assignments after shutting down a hub with an
empty token store is the empty list. -/
theorem shutdown_state_and_assignments_witness :
    ((hubC7.shutdown 5000).closedGame
      = some { newGameSession 2 with
          closed := true,
          closeStatus := statusNormalClosure,
          closeReason := str "server shutdown" }) ∧
    ((hubFull.shutdown 200).hub.controllerAssignments 7).2 = [] :=
  ⟨(shutdown_state_and_assignments hubC7 5000 0).2.2.1 (newGameSession 2) rfl rfl,
   (shutdown_state_and_assignments hubFull 200 7).2.2.2.2.2.2 (by decide)⟩
